import Mathlib

/-!
Verification of the Template Synthesis Engine of the `anonymizer` repository
(`docx_to_template_converter.py`, `template_builder.py`, `src/database.py`).

The Python functions are shallowly embedded as pure Lean functions:
a document is a list of paragraphs, a paragraph a list of runs (strings),
in-place mutation becomes returning the updated list, and a Python
exception becomes an `Except` error value.  String primitives
(`in`, `str.replace`, `str.count`, `str.strip`, `str.splitlines`) are
re-implemented on `List Char` with Python's semantics.
-/

namespace Anonymizer

/-! ## Python string primitives on `List Char` -/

/-- Substring test, Python's `pat in l` (the empty pattern is contained
in every string). -/
def containsSub (l pat : List Char) : Bool :=
  pat.isPrefixOf l ||
    match l with
    | [] => false
    | _ :: rest => containsSub rest pat

/-- Core of Python's `str.replace`: scan left to right, replace each
non-overlapping occurrence of `pat`, skipping `pat.length` characters after a
match.  The scan consumes at least one character per step, so running it with
`fuel = l.length` (as `replaceCore` does) never reaches the out-of-fuel
branch; the fuel only makes the recursion structural. -/
def replaceFuel : Nat → List Char → List Char → List Char → List Char
  | 0, l, _, _ => l
  | f + 1, l, pat, rep =>
    match l with
    | [] => []
    | c :: rest =>
      if pat ≠ [] ∧ pat.isPrefixOf (c :: rest) then
        rep ++ replaceFuel f (rest.drop (pat.length - 1)) pat rep
      else
        c :: replaceFuel f rest pat rep

def replaceCore (l pat rep : List Char) : List Char :=
  replaceFuel l.length l pat rep

/-- Python's `str.count`: number of non-overlapping occurrences, scanning
left to right, with the same fuel scheme as `replaceFuel`.  `str.count` with
an empty pattern is never used by the source. -/
def countFuel : Nat → List Char → List Char → Nat
  | 0, _, _ => 0
  | f + 1, l, pat =>
    match l with
    | [] => 0
    | c :: rest =>
      if pat ≠ [] ∧ pat.isPrefixOf (c :: rest) then
        1 + countFuel f (rest.drop (pat.length - 1)) pat
      else
        countFuel f rest pat

def countOccsL (l pat : List Char) : Nat :=
  countFuel l.length l pat

/-- The whitespace class used throughout `docx_to_template_converter.py`:
the characters matched by the regex `[\s \t]` of
`_normalize_text_for_match` and stripped by Python's `str.strip()`
(ASCII whitespace plus the non-breaking space). -/
def isPyWs (c : Char) : Bool :=
  c = ' ' || c = '\t' || c = '\n' || c = '\x0d' || c = '\x0b' || c = '\x0c' ||
    c = ' '

/-- Python `str.strip()`: drop leading and trailing whitespace. -/
def trimRightWs : List Char → List Char
  | [] => []
  | c :: rest =>
    let r := trimRightWs rest
    if r = [] ∧ isPyWs c then [] else c :: r

def trimLeftWs (l : List Char) : List Char := l.dropWhile isPyWs

def stripChars (l : List Char) : List Char := trimRightWs (trimLeftWs l)

/-- `re.sub(r'[\s \t]+', ' ', text)`: every maximal run of whitespace
becomes a single ASCII space.  `inRun` records whether the previous character
belonged to a whitespace run already rewritten to `' '`. -/
def collapseAux : List Char → Bool → List Char
  | [], _ => []
  | c :: rest, inRun =>
    if isPyWs c then
      if inRun then collapseAux rest true
      else ' ' :: collapseAux rest true
    else c :: collapseAux rest false

def collapseWs (l : List Char) : List Char := collapseAux l false

/-- `_normalize_text_for_match` (docx_to_template_converter.py:215-217):
`re.sub(r'[\s \t]+', ' ', text).strip()`. -/
def normalizeChars (l : List Char) : List Char :=
  stripChars (collapseWs l)

/-! ## String-level wrappers -/

def strContains (s pat : String) : Bool := containsSub s.data pat.data

/-- Python `s.replace(old, new)`; with `old = ""` Python inserts `new`
before every character and at the end. -/
def pyReplace (s old new : String) : String :=
  if old.data = [] then
    ⟨new.data ++ s.data.foldr (fun c acc => c :: (new.data ++ acc)) []⟩
  else
    ⟨replaceCore s.data old.data new.data⟩

def countOccs (s pat : String) : Nat := countOccsL s.data pat.data

def pyStrip (s : String) : String := ⟨stripChars s.data⟩

/-- `_normalize_text_for_match` at `String` level. -/
def normText (s : String) : String := ⟨normalizeChars s.data⟩

/-- Python `str.splitlines()` restricted to the line-break characters the
source documents use; a `\r\n` pair yields an intervening empty entry, which
every caller in the source filters away (`if line.strip()`). -/
def isLineBreak (c : Char) : Bool :=
  c = '\n' || c = '\x0d' || c = '\x0b' || c = '\x0c'

def splitLinesChars : List Char → List (List Char)
  | [] => [[]]
  | c :: rest =>
    let r := splitLinesChars rest
    if isLineBreak c then [] :: r
    else
      match r with
      | [] => [[c]]
      | x :: xs => (c :: x) :: xs

/-- `original_block.splitlines()`: Python yields no entry for the empty
string, and drops a trailing empty segment after a final line break; the
callers below keep only non-empty stripped lines, for which this simple
separator-split is equivalent. -/
def splitlinesPy (s : String) : List String :=
  (splitLinesChars s.data).map (fun l => ⟨l⟩)

/-- `" ".join(lines)`. -/
def joinSp : List String → String
  | [] => ""
  | [s] => s
  | s :: rest => s ++ " " ++ joinSp rest

/-- `"\n".join(texts)`. -/
def joinNl : List String → String
  | [] => ""
  | [s] => s
  | s :: rest => s ++ "\n" ++ joinNl rest

/-- Python `str.lower()` on the ASCII range (the keyword tests of
`stage2_apply_annotations` only use lowercase ASCII and lowercase accented
letters, which `lower()` leaves unchanged). -/
def asciiLower (s : String) : String := ⟨s.data.map Char.toLower⟩

/-! ## Document model

A .docx document is modelled as its ordered list of paragraphs; a paragraph
(`Block` in the spec) is its ordered list of runs, each run carrying its text.
`python-docx`'s `paragraph.text` is the concatenation of its runs' texts.
Tables are not modelled: every claim below concerns table-free documents, for
which `doc.paragraphs` is the whole block list. -/

abbrev Para := List String

def paraText (p : Para) : String := p.foldl (fun a r => a ++ r) ""

def docText (doc : List Para) : String := joinNl (doc.map paraText)

/-- Python exceptions raised by the embedded functions. -/
inductive PyExc
  | valueError (msg : String)
  | syntaxError (msg : String)
  | indexError
  | attributeError
deriving DecidableEq, Repr

/-! ## `_replace_text_in_paragraph` (lines 136-143) -/

/-- `sorted(replacements.items(), key=lambda item: len(item[0]), reverse=True)`:
stable sort by descending key length (a `dict` iterates in insertion order,
so the association list keeps that order for equal lengths). -/
def insertByDescLen (x : String × String) :
    List (String × String) → List (String × String)
  | [] => [x]
  | y :: ys =>
    if x.1.length ≤ y.1.length then y :: insertByDescLen x ys
    else x :: y :: ys

def sortByDescKeyLen (l : List (String × String)) : List (String × String) :=
  l.foldl (fun acc x => insertByDescLen x acc) []

/-- `_replace_text_in_paragraph(paragraph, replacements)`: for each
`(old, new)` in descending key-length order, if `old` occurs in the
paragraph's (current) concatenated text, replace it inside every run that
contains it in full. -/
def replaceTextInParagraph (p : Para) (replacements : List (String × String)) :
    Para :=
  (sortByDescKeyLen replacements).foldl
    (fun runs kv =>
      if strContains (paraText runs) kv.1 then
        runs.map (fun r => if strContains r kv.1 then pyReplace r kv.1 kv.2 else r)
      else runs)
    p

/-! ## `_delete_paragraph` (lines 145-152)

The state of a `docx` `Paragraph` wrapper, as far as `_delete_paragraph`
observes it: `element = none` models `paragraph._element is None` (the
wrapper was nulled by a previous successful `_delete_paragraph`);
`element = some b` models a live lxml element, with `b` true exactly when
`p.getparent() is not None`. -/
structure PyParagraph where
  element : Option Bool
deriving DecidableEq, Repr

/-- `_delete_paragraph(paragraph)`:
`p = paragraph._element; if p.getparent() is not None: remove, null the
wrapper; else: log a warning and skip`.  When the wrapper was already nulled,
`p` is `None` and `p.getparent()` raises `AttributeError`. -/
def deleteParagraph : PyParagraph → Except PyExc PyParagraph
  | ⟨none⟩ => .error .attributeError
  | ⟨some false⟩ => .ok ⟨some false⟩
  | ⟨some true⟩ => .ok ⟨none⟩

/-! ## `_replace_text_block` (lines 219-259) -/

/-- The non-empty stripped lines of `original_block`:
`[line.strip() for line in original_block.splitlines() if line.strip()]`. -/
def blockLines (original_block : String) : List String :=
  ((splitlinesPy original_block).map pyStrip).filter (fun l => l ≠ "")

/-- The index of the first paragraph whose normalized text equals the
normalized first line (`start_para_index`). -/
def findStartIdx (paragraphs : List Para) (firstLine : String) : Option Nat :=
  paragraphs.findIdx? (fun p => normText (paraText p) == normText firstLine)

/-- The accumulation loop of `_replace_text_block`, run over the paragraphs
from `start_para_index` on: skip paragraphs with empty normalized text,
append each other paragraph's normalized text to the running join `acc`, and
on the join reaching `target` rebuild the tail of the document — the first
collected paragraph is cleared and given the single run `new_block`
(`first_para.clear(); first_para.add_run(new_block)`), every later collected
paragraph is deleted, skipped empty paragraphs and everything after the
match survive.  Returns `none` when the paragraph list is exhausted. -/
def collapseFrom (remaining : List Para) (acc : String) (isFirst : Bool)
    (target new_block : String) : Option (List Para) :=
  match remaining with
  | [] => none
  | p :: rest =>
    let t := normText (paraText p)
    if t = "" then
      (collapseFrom rest acc isFirst target new_block).map (fun r => p :: r)
    else
      let acc' := if acc = "" then t else acc ++ " " ++ t
      let keep : List Para := if isFirst then [[new_block]] else []
      if acc' = target then some (keep ++ rest)
      else (collapseFrom rest acc' false target new_block).map (fun r => keep ++ r)

/-- The same accumulation, observationally: does the greedy join from this
point ever equal `target`? -/
def accumMatches (remaining : List Para) (acc target : String) : Bool :=
  match remaining with
  | [] => false
  | p :: rest =>
    let t := normText (paraText p)
    if t = "" then accumMatches rest acc target
    else
      let acc' := if acc = "" then t else acc ++ " " ++ t
      acc' = target || accumMatches rest acc' target

/-- `_replace_text_block(paragraphs, original_block, new_block)`: the updated
paragraph list together with the returned Bool.  `original_lines[0]` raises
`IndexError` when `original_block` has no non-empty stripped line. -/
def replaceTextBlockE (paragraphs : List Para) (original_block new_block : String) :
    Except PyExc (List Para × Bool) :=
  let lines := blockLines original_block
  match lines with
  | [] => .error .indexError
  | l0 :: _ =>
    let target := normText (joinSp lines)
    match findStartIdx paragraphs l0 with
    | none => .ok (paragraphs, false)
    | some i =>
      match collapseFrom (paragraphs.drop i) "" true target new_block with
      | some newTail => .ok (paragraphs.take i ++ newTail, true)
      | none => .ok (paragraphs, false)

/-! ## `validate_and_finalize_template` (lines 182-213) -/

def requiredLoop : String := "\x7b% for job in experiences %\x7d"

/-- The `fallback_block` literal of `inject_fallback_experience_block`. -/
def fallbackExperienceBlock : String :=
  "\x7b% for job in experiences %\x7d\n- \x7b\x7b job.title \x7d\x7d at \x7b\x7b job.company \x7d\x7d (\x7b\x7b job.start_date \x7d\x7d - \x7b\x7b job.end_date \x7d\x7d)\n  \x7b\x7b job.description \x7d\x7d\n\x7b% endfor %\x7d"

/-- `inject_fallback_experience_block(doc)` (lines 168-180): appends a marker
paragraph and a paragraph holding the fallback loop block. -/
def fallbackParas : List Para :=
  [["\n--- Fallback Section ---"], [fallbackExperienceBlock]]

def forbiddenEduFields : List String := ["education.year", "education.degree"]

/-- The `for field in forbidden_edu_fields` loop: the first field whose
`"\x7b\x7b field \x7d\x7d"` form occurs in the document text, if any. -/
def firstForbiddenField (t : String) : List String → Option String
  | [] => none
  | f :: rest =>
    if strContains t ("\x7b\x7b " ++ f ++ " \x7d\x7d") then some f
    else firstForbiddenField t rest

def noJinjaMsg : String :=
  "Validation failed: No Jinja2 syntax found in the document."

def unbalancedMsg : String :=
  "Validation failed: Unbalanced for/endfor blocks."

def joinOutsideMsg : String :=
  "Validation failed: `join` filter found outside of a loop context."

/-- `validate_and_finalize_template(doc, autofix)`: checks the flattened
document text in order (Jinja2 syntax present, balanced `for`/`endfor`
counts, no `join` filter outside a loop, no forbidden education field,
required experience loop present — injecting the fallback block when
`autofix` is on), raising `ValueError`/`SyntaxError` on the first violation
and otherwise returning the (possibly extended) document. -/
def validateAndFinalizeTemplate (doc : List Para) (autofix : Bool) :
    Except PyExc (List Para) :=
  let t := docText doc
  if ¬ (strContains t "\x7b\x7b" || strContains t "\x7b%") then
    .error (.valueError noJinjaMsg)
  else if countOccs t "\x7b% for" ≠ countOccs t "\x7b% endfor %\x7d" then
    .error (.syntaxError unbalancedMsg)
  else if strContains t "| join(" && !(strContains t "\x7b% for") then
    .error (.syntaxError joinOutsideMsg)
  else
    match firstForbiddenField t forbiddenEduFields with
    | some f => .error (.valueError ("Validation failed: Forbidden field used: " ++ f))
    | none =>
      if ¬ strContains t requiredLoop then
        if autofix then .ok (doc ++ fallbackParas)
        else .error (.valueError
          ("Validation failed: Missing required template logic: " ++ requiredLoop))
      else .ok doc

/-! ## `stage2_apply_annotations` (lines 261-318) -/

/-- `force_secure_loop_block(var_name, iterable, body, join)` (lines 154-166). -/
def forceSecureLoopBlock (var_name iterable body : String) (join : Bool) : String :=
  if join then
    "\x7b% for " ++ var_name ++ ", tools in " ++ iterable ++
      ".items() %\x7d\n\x7b\x7b " ++ var_name ++
      " \x7d\x7d: \x7b\x7b tools | join(', ') \x7d\x7d\n\x7b% endfor %\x7d"
  else
    "\x7b% for " ++ var_name ++ " in " ++ iterable ++ " %\x7d\n" ++
      pyStrip body ++ "\n\x7b% endfor %\x7d"

structure BlockReplacement where
  original_block : String
  new_block : String
deriving DecidableEq, Repr

structure SemanticMap where
  simple_replacements : List (String × String)
  block_replacements : List BlockReplacement
deriving DecidableEq, Repr

def experienceBody : String :=
  "\x7b\x7b job.title \x7d\x7d\n\x7b\x7b job.company \x7d\x7d\n\x7b\x7b job.start_date \x7d\x7d - \x7b\x7b job.end_date \x7d\x7d\n\x7b\x7b job.description \x7d\x7d"

def educationBody : String :=
  "\x7b\x7b education.title \x7d\x7d - \x7b\x7b education.institution \x7d\x7d"

/-- The rule-based block-type identification of stage 2 (lines 289-300):
the deterministic block to inject for `original_text`, or `none` for an
unrecognized block type (skipped with a warning).  Note stage 2 ignores the
semantic map's `new_block` and always injects these deterministic blocks. -/
def blockToInject (original_text : String) : Option String :=
  let low := asciiLower original_text
  if strContains low "experience" || strContains low "mission" then
    some (forceSecureLoopBlock "job" "experiences" experienceBody false)
  else if strContains low "formation" || strContains low "education" ||
      strContains low "diplôme" then
    some (forceSecureLoopBlock "education" "educations" educationBody false)
  else if strContains low "compétences" || strContains low "skills" ||
      strContains low "outils" then
    some (forceSecureLoopBlock "category" "technical_skills" "" true)
  else none

/-- The `for block in block_replacements` loop of stage 2: identify each
block's type, skip unknown types, and run `_replace_text_block` on the
current paragraph list (re-listed from the document each iteration). -/
def applyBlockReplacements (doc : List Para) :
    List BlockReplacement → Except PyExc (List Para)
  | [] => .ok doc
  | b :: rest =>
    match blockToInject b.original_block with
    | none => applyBlockReplacements doc rest
    | some inj =>
      match replaceTextBlockE doc b.original_block inj with
      | .error e => .error e
      | .ok (doc', _) => applyBlockReplacements doc' rest

/-- The simple-replacement pass of stage 2 (lines 272-281): when
`simple_replacements` is non-empty, run `_replace_text_in_paragraph` on every
paragraph. -/
def applySimpleReplacements (doc : List Para)
    (simple : List (String × String)) : List Para :=
  if simple = [] then doc
  else doc.map (fun p => replaceTextInParagraph p simple)

/-- `stage2_apply_annotations(docx_stream, semantic_map)` for a table-free
document: the simple-replacement pass, then the block-replacement loop, then
`validate_and_finalize_template(doc, autofix=True)`. -/
def stage2ApplyAnnotations (doc : List Para) (m : SemanticMap) :
    Except PyExc (List Para) :=
  let d1 :=
    if m.simple_replacements = [] then doc
    else doc.map (fun p => replaceTextInParagraph p m.simple_replacements)
  match applyBlockReplacements d1 m.block_replacements with
  | .error e => .error e
  | .ok d2 => validateAndFinalizeTemplate d2 true

/-- The pass order prescribed by the spec (§4.5: span replacements first,
atomic replacements second), stated as a pipeline for comparison with
`stage2ApplyAnnotations`. -/
def stage2SpanFirstSpec (doc : List Para) (m : SemanticMap) :
    Except PyExc (List Para) :=
  match applyBlockReplacements doc m.block_replacements with
  | .error e => .error e
  | .ok d1 =>
    validateAndFinalizeTemplate (applySimpleReplacements d1 m.simple_replacements) true

def isOkE {ε α : Type} : Except ε α → Bool
  | .ok _ => true
  | .error _ => false

/-! ## `convert_docx_to_template` (lines 321-347) -/

/-- `_extract_text_from_docx` for a table-free document: the paragraph texts
joined by newlines. -/
def extractTextFromDocx (doc : List Para) : String := docText doc

/-- `convert_docx_to_template`, with the Stage-1 semantic map (the mapping
service's reply) supplied as the parameter `m`: return the original document
unchanged when the extracted text is blank or when the map has neither simple
nor block replacements, otherwise run stage 2. -/
def convertDocxToTemplate (doc : List Para) (m : SemanticMap) :
    Except PyExc (List Para) :=
  if pyStrip (extractTextFromDocx doc) = "" then .ok doc
  else if m.simple_replacements = [] ∧ m.block_replacements = [] then .ok doc
  else stage2ApplyAnnotations doc m

/-! ## The synthesis retry loop -/

structure MapAttempt where
  valid : Bool
  issues : List String

/-- Modelled from the spec: the Synthesis Orchestrator's bounded
retry-with-feedback loop (spec §4.7 and §8 "Retry bound") is not under
`src/` — only its tests (`tests/test_converter.py` driving the
`/convert-to-template` endpoint) and the feedback channel it uses (the
`feedback_issues` parameter of `convert_docx_to_template`) are.  Per the
spec, `Retry` transitions back to `Map` carrying the prior
`ValidationReport.issues` as feedback, bounded by `maxRetries` (default 3),
and exhausting the retries is a terminal failure.  `mapper` models one
Semantic Mapper call: its argument is the optional feedback, its result the
mapping's validation verdict.  The loop returns the number of mapping calls
made, paired with overall success. -/
def runSynthesisRetryLoop (mapper : Option (List String) → MapAttempt) :
    Nat → Option (List String) → Nat × Bool
  | 0, _ => (0, false)
  | n + 1, fb =>
    let r := mapper fb
    if r.valid then (1, true)
    else
      let later := runSynthesisRetryLoop mapper n (some r.issues)
      (later.1 + 1, later.2)

def maxRetries : Nat := 3

def synthesizeWithRetries (mapper : Option (List String) → MapAttempt) :
    Nat × Bool :=
  runSynthesisRetryLoop mapper maxRetries none

/-! ## The HTML conversion cache
(`template_builder.py:_cache_html`, `src/database.py:cache_html`) -/

/-- The cache table: rows of (hash key, stored markup). -/
abbrev CacheTable := List (String × String)

/-- `SELECT html_content FROM ... WHERE hash = k`: the stored markup of the
first row with key `k`, if any. -/
def sqlLookup : CacheTable → String → Option String
  | [], _ => none
  | r :: rest, k => if r.1 = k then some r.2 else sqlLookup rest k

/-- `INSERT ... ON CONFLICT (hash) DO UPDATE SET html_content =
EXCLUDED.html_content` — the statement of `cache_html` in
`src/database.py`. -/
def upsertRow : CacheTable → String → String → CacheTable
  | [], k, v => [(k, v)]
  | r :: rest, k, v => if r.1 = k then (k, v) :: rest else r :: upsertRow rest k v

/-- `INSERT ... ON CONFLICT (file_hash) DO NOTHING` — the statement of
`_cache_html` in `template_builder.py`. -/
def insertIgnoreRow : CacheTable → String → String → CacheTable
  | [], k, v => [(k, v)]
  | r :: rest, k, v => if r.1 = k then r :: rest else r :: insertIgnoreRow rest k v

/-- `cache_html(file_hash, html_content)` of `src/database.py`.
`writeFails` models any exception from the connection, execute or commit:
the transaction is rolled back (table unchanged) and the error is logged and
swallowed — the function always returns, never propagates. -/
def cache_html (writeFails : Bool) (t : CacheTable)
    (file_hash html_content : String) : CacheTable :=
  if writeFails then t else upsertRow t file_hash html_content

/-- `_cache_html(file_hash, html_content)` of `template_builder.py`, with the
same failure model (a `None` connection or an exception is logged and
swallowed, leaving the table unchanged). -/
def tb_cache_html (writeFails : Bool) (t : CacheTable)
    (file_hash html_content : String) : CacheTable :=
  if writeFails then t else insertIgnoreRow t file_hash html_content

/-! ## Auxiliary predicates used by the theorems -/

instance {ε α : Type} [DecidableEq ε] [DecidableEq α] :
    DecidableEq (Except ε α) := fun a b =>
  match a, b with
  | .ok x, .ok y =>
    if h : x = y then .isTrue (by rw [h]) else .isFalse (by simp [h])
  | .error x, .error y =>
    if h : x = y then .isTrue (by rw [h]) else .isFalse (by simp [h])
  | .ok _, .error _ => .isFalse (by simp)
  | .error _, .ok _ => .isFalse (by simp)

/-- The claim C3 failure condition, exactly as `_replace_text_block` decides
it: the span's first non-empty line matches no paragraph (by normalized
equality), or the greedy accumulation started at the first matching paragraph
never equals the full normalized span.  (A span with no non-empty line has no
first line, so neither alternative applies.) -/
def spanNotFoundB (paragraphs : List Para) (original_block : String) : Bool :=
  match blockLines original_block with
  | [] => false
  | l0 :: rest =>
    match findStartIdx paragraphs l0 with
    | none => true
    | some i =>
      !(accumMatches (paragraphs.drop i) "" (normText (joinSp (l0 :: rest))))

/-- The loop-open marker counted by `validate_and_finalize_template`. -/
def loopOpenMarker : String := "\x7b% for"

/-- The loop-close marker counted by `validate_and_finalize_template`. -/
def loopCloseMarker : String := "\x7b% endfor %\x7d"

/-- Every whitespace character of the list is the ASCII space. -/
def allWsSp : List Char → Bool
  | [] => true
  | c :: rest => (!isPyWs c || c = ' ') && allWsSp rest

/-- No two adjacent characters are both whitespace. -/
def noAdjWs : List Char → Bool
  | a :: b :: rest => !(isPyWs a && isPyWs b) && noAdjWs (b :: rest)
  | _ => true

/-- The first character, if any, is not whitespace. -/
def noLeadWsB : List Char → Bool
  | [] => true
  | c :: _ => !isPyWs c

/-- The last character, if any, is not whitespace. -/
def noTrailWsB : List Char → Bool
  | [] => true
  | [c] => !isPyWs c
  | _ :: rest => noTrailWsB rest

/-! # Theorems -/

/-! ## C2: the synthesis retry loop is bounded -/

theorem runSynthesisRetryLoop_always_invalid
    (mapper : Option (List String) → MapAttempt)
    (h : ∀ fb, (mapper fb).valid = false) :
    ∀ (n : Nat) (fb : Option (List String)),
      runSynthesisRetryLoop mapper n fb = (n, false) := by
  intro n
  induction n with
  | zero => intro fb; rfl
  | succ k ih =>
    intro fb
    simp [runSynthesisRetryLoop, h fb, ih (some (mapper fb).issues)]

/-- C2: if the Semantic Mapper always returns a mapping that fails
validation, the orchestrator's retry loop makes exactly `maxRetries = 3`
mapping calls (each after the first carrying the prior attempt's issues as
feedback, per the definition of `runSynthesisRetryLoop`) and then terminates
with a failure; the loop is structurally recursive on the attempt budget, so
it never runs unboundedly. -/
theorem c2_retry_bound (mapper : Option (List String) → MapAttempt)
    (h : ∀ fb, (mapper fb).valid = false) :
    synthesizeWithRetries mapper = (3, false) := by
  have hm := runSynthesisRetryLoop_always_invalid mapper h maxRetries none
  simpa [synthesizeWithRetries, maxRetries] using hm

theorem c2_retry_bound_witness :
    (∀ fb : Option (List String),
      ((fun _ : Option (List String) =>
        MapAttempt.mk false ["unbalanced loop"]) fb).valid = false) ∧
    synthesizeWithRetries
      (fun _ => MapAttempt.mk false ["unbalanced loop"]) = (3, false) :=
  ⟨fun _ => rfl, c2_retry_bound _ (fun _ => rfl)⟩

/-! ## C4: deleting an already-detached paragraph -/

/-- C4 counterexample: running `_delete_paragraph` a second time on a
paragraph wrapper on which it has already run successfully raises
`AttributeError` (the wrapper's `_element` was set to `None`, and
`None.getparent()` fails), instead of the claimed warning no-op. -/
theorem c4_counterexample :
    (deleteParagraph ⟨some true⟩).bind deleteParagraph =
      .error .attributeError := rfl

/-- C4 amended: `_delete_paragraph` on a paragraph whose element has no
parent (e.g. the element was already detached through a different wrapper)
is a logged no-op; but re-running it on the same wrapper object after a
successful delete raises `AttributeError`. -/
theorem c4_amended (p : PyParagraph) :
    (p.element = some false → deleteParagraph p = .ok p) ∧
    (p.element = none → deleteParagraph p = .error .attributeError) := by
  obtain ⟨e⟩ := p
  cases e with
  | none => exact ⟨fun h => by simp at h, fun _ => rfl⟩
  | some b =>
    cases b with
    | false => exact ⟨fun _ => rfl, fun h => by simp at h⟩
    | true => exact ⟨fun h => by simp at h, fun h => by simp at h⟩

theorem c4_amended_witness :
    deleteParagraph ⟨some false⟩ = .ok ⟨some false⟩ ∧
    deleteParagraph ⟨none⟩ = .error .attributeError :=
  ⟨(c4_amended ⟨some false⟩).1 rfl, (c4_amended ⟨none⟩).2 rfl⟩

/-! ## C5: cache write semantics -/

theorem sqlLookup_upsertRow (t : CacheTable) (k v : String) :
    sqlLookup (upsertRow t k v) k = some v := by
  induction t with
  | nil => simp [upsertRow, sqlLookup]
  | cons r rest ih =>
    by_cases h : r.1 = k
    · simp [upsertRow, h, sqlLookup]
    · simp [upsertRow, h, sqlLookup, ih]

theorem sqlLookup_insertIgnoreRow (t : CacheTable) (k v : String) :
    sqlLookup (insertIgnoreRow t k v) k = some ((sqlLookup t k).getD v) := by
  induction t with
  | nil => simp [insertIgnoreRow, sqlLookup]
  | cons r rest ih =>
    by_cases h : r.1 = k
    · simp [insertIgnoreRow, h, sqlLookup]
    · simp [insertIgnoreRow, h, sqlLookup, ih]

/-- C5 counterexample: `_cache_html` of `template_builder.py` uses
`ON CONFLICT DO NOTHING`, so on a key conflict the stored content is kept,
not overwritten with the newly supplied markup. -/
theorem c5_counterexample :
    tb_cache_html false [("h", "old")] "h" "new" = [("h", "old")] ∧
    sqlLookup (tb_cache_html false [("h", "old")] "h" "new") "h" ≠
      some "new" := by
  refine ⟨rfl, ?_⟩
  intro h
  simp [tb_cache_html, insertIgnoreRow, sqlLookup] at h

/-- C5 amended: the db-layer `cache_html` (`src/database.py`) has upsert
semantics — after a successful write the stored markup under the key is the
newly supplied one, whether the key was present or not; `_cache_html`
(`template_builder.py`) inserts when the key is absent but keeps the
existing content on conflict.  In both, a failing write leaves the cache
unchanged and is swallowed, never propagated (the functions are total). -/
theorem c5_amended (t : CacheTable) (k v : String) :
    sqlLookup (cache_html false t k v) k = some v ∧
    sqlLookup (tb_cache_html false t k v) k = some ((sqlLookup t k).getD v) ∧
    cache_html true t k v = t ∧
    tb_cache_html true t k v = t :=
  ⟨sqlLookup_upsertRow t k v, sqlLookup_insertIgnoreRow t k v, rfl, rfl⟩

/-! ## C10: an empty semantic map (or empty text) returns the input
unchanged -/

/-- C10: when the Semantic Mapper returns a map with no simple and no block
replacements, or the extracted text is blank, `convert_docx_to_template`
returns the original document unchanged — stage 2, and with it validation,
is never entered, for every document (in particular one with no directives,
which validation would reject). -/
theorem c10_empty_map_identity :
    (∀ (doc : List Para) (m : SemanticMap),
        m.simple_replacements = [] → m.block_replacements = [] →
        convertDocxToTemplate doc m = .ok doc) ∧
    (∀ (doc : List Para) (m : SemanticMap),
        pyStrip (extractTextFromDocx doc) = "" →
        convertDocxToTemplate doc m = .ok doc) := by
  constructor
  · intro doc m h1 h2
    unfold convertDocxToTemplate
    split
    · rfl
    · rw [if_pos ⟨h1, h2⟩]
  · intro doc m h
    unfold convertDocxToTemplate
    rw [if_pos h]

theorem c10_empty_map_identity_witness :
    convertDocxToTemplate [["hello world"]] ⟨[], []⟩ = .ok [["hello world"]] ∧
    strContains (docText [["hello world"]]) "\x7b\x7b" = false ∧
    strContains (docText [["hello world"]]) "\x7b%" = false ∧
    validateAndFinalizeTemplate [["hello world"]] true =
      .error (.valueError noJinjaMsg) :=
  ⟨c10_empty_map_identity.1 [["hello world"]] ⟨[], []⟩ rfl rfl,
   by decide, by decide, rfl⟩

/-! ## C1: the order of the two rewriting passes -/

/-- C1 counterexample: on a document whose only paragraph is `"skills list"`,
with the simple replacement `skills → X` and a block replacement targeting
`"skills list"`, `stage2_apply_annotations` fails (the simple pass rewrote
the text first, so the block pass no longer finds its span and validation
then finds no directive at all), while the spec-prescribed span-first order
succeeds — so the two passes are NOT applied span-first in the code. -/
theorem c1_counterexample :
    stage2ApplyAnnotations [["skills list"]]
        ⟨[("skills", "X")], [⟨"skills list", "ignored"⟩]⟩ =
      .error (.valueError noJinjaMsg) ∧
    isOkE (stage2SpanFirstSpec [["skills list"]]
        ⟨[("skills", "X")], [⟨"skills list", "ignored"⟩]⟩) = true := by
  constructor
  · decide
  · decide

/-- C1 amended: `stage2_apply_annotations` applies the simple (atomic)
replacements pass first and the block (span) replacements second, then
validates: it equals that three-stage pipeline for every document and
semantic map. -/
theorem c1_simple_first (doc : List Para) (m : SemanticMap) :
    stage2ApplyAnnotations doc m =
      match applyBlockReplacements (applySimpleReplacements doc m.simple_replacements)
          m.block_replacements with
      | .error e => .error e
      | .ok d2 => validateAndFinalizeTemplate d2 true := rfl

/-! ## C6: longest-key-first simple replacement -/

/-- C6 counterexample: the claim quantifies over every paragraph whose text
is `"John Doe works here"`; on a paragraph whose runs split the text as
`["John", " Doe works here"]`, the run-local replacement cannot see
`"John Doe"` inside a single run, so the shorter key corrupts the longer
original and the result text is exactly the forbidden
`"{name} Doe works here"`. -/
theorem c6_counterexample :
    paraText ["John", " Doe works here"] = "John Doe works here" ∧
    paraText (replaceTextInParagraph ["John", " Doe works here"]
        [("John", "\x7bname\x7d"), ("John Doe", "\x7bfull_name\x7d")]) =
      "\x7bname\x7d Doe works here" ∧
    strContains
      (paraText (replaceTextInParagraph ["John", " Doe works here"]
        [("John", "\x7bname\x7d"), ("John Doe", "\x7bfull_name\x7d")]))
      "\x7bfull_name\x7d works here" = false := by
  refine ⟨by decide, by decide, by decide⟩

/-- C6 amended: on a paragraph holding `"John Doe works here"` in a single
run, the descending-key-length order makes the longer key win: the result
contains `"{full_name} works here"` and not `"{name} Doe works here"`. -/
theorem c6_amended :
    replaceTextInParagraph ["John Doe works here"]
        [("John", "\x7bname\x7d"), ("John Doe", "\x7bfull_name\x7d")] =
      ["\x7bfull_name\x7d works here"] ∧
    strContains
      (paraText (replaceTextInParagraph ["John Doe works here"]
        [("John", "\x7bname\x7d"), ("John Doe", "\x7bfull_name\x7d")]))
      "\x7bfull_name\x7d works here" = true ∧
    strContains
      (paraText (replaceTextInParagraph ["John Doe works here"]
        [("John", "\x7bname\x7d"), ("John Doe", "\x7bfull_name\x7d")]))
      "\x7bname\x7d Doe works here" = false := by
  refine ⟨by decide, by decide, by decide⟩

/-! ## C7: span collapse -/

/-- C7 counterexample: with `originalSpan` given literally as the joined text
`"Title A Company A 2020-2022"` (a single line), `_replace_text_block` looks
for a paragraph whose normalized text equals that whole line, finds none,
and returns the document unchanged with `false` — no block ever contains
`"<loop>...</loop>"`. -/
theorem c7_counterexample :
    replaceTextBlockE [["Title A"], ["Company A"], ["2020-2022"]]
        "Title A Company A 2020-2022" "<loop>...</loop>" =
      .ok ([["Title A"], ["Company A"], ["2020-2022"]], false) ∧
    ([["Title A"], ["Company A"], ["2020-2022"]] : List Para).countP
        (fun p => strContains (paraText p) "<loop>...</loop>") = 0 := by
  refine ⟨by decide, by decide⟩

/-! ## C3: a missing span is non-fatal -/

theorem collapseFrom_none_of_accumMatches_false (remaining : List Para) :
    ∀ (acc : String) (first : Bool) (target nb : String),
      accumMatches remaining acc target = false →
      collapseFrom remaining acc first target nb = none := by
  induction remaining with
  | nil => intro acc first target nb _; rfl
  | cons p rest ih =>
    intro acc first target nb h
    simp only [accumMatches] at h
    simp only [collapseFrom]
    by_cases ht : normText (paraText p) = ""
    · rw [if_pos ht] at h
      rw [if_pos ht, ih _ _ _ _ h]
      rfl
    · rw [if_neg ht] at h
      rw [if_neg ht]
      rw [Bool.or_eq_false_iff] at h
      obtain ⟨h1, h2⟩ := h
      rw [decide_eq_false_iff_not] at h1
      rw [if_neg h1, ih _ _ _ _ h2]
      rfl

/-- C3: for every document and block replacement whose `originalSpan` does
not occur in the document — its first non-empty line matches no paragraph,
or the greedy accumulation from the first matching paragraph never equals
the full normalized span, as `spanNotFoundB` states — `_replace_text_block`
leaves every paragraph unchanged, returns `false`, and raises no exception. -/
theorem c3_missing_span_nonfatal (paragraphs : List Para)
    (original_block new_block : String)
    (h : spanNotFoundB paragraphs original_block = true) :
    replaceTextBlockE paragraphs original_block new_block =
      .ok (paragraphs, false) := by
  unfold spanNotFoundB at h
  cases hl : blockLines original_block with
  | nil => rw [hl] at h; exact absurd h (by simp)
  | cons l0 rest =>
    rw [hl] at h
    simp only at h
    cases hf : findStartIdx paragraphs l0 with
    | none => simp only [replaceTextBlockE, hl, hf]
    | some i =>
      rw [hf] at h
      simp only [Bool.not_eq_true'] at h
      simp only [replaceTextBlockE, hl, hf,
        collapseFrom_none_of_accumMatches_false _ _ _ _ _ h]

theorem c3_missing_span_nonfatal_witness :
    spanNotFoundB [["Hello"]] "Goodbye" = true ∧
    replaceTextBlockE [["Hello"]] "Goodbye" "X" = .ok ([["Hello"]], false) :=
  ⟨by decide, c3_missing_span_nonfatal [["Hello"]] "Goodbye" "X" (by decide)⟩

/-! ## C8: the validator's loop-balance check -/

theorem countFuel_eq_zero_of_not_contains :
    ∀ (f : Nat) (l pat : List Char),
      containsSub l pat = false → countFuel f l pat = 0 := by
  intro f
  induction f with
  | zero => intro l pat _; rfl
  | succ k ih =>
    intro l pat h
    cases l with
    | nil => rfl
    | cons c rest =>
      simp only [containsSub, Bool.or_eq_false_iff] at h
      obtain ⟨h1, h2⟩ := h
      simp only [countFuel]
      rw [if_neg (fun hc => by rw [h1] at hc; exact absurd hc.2 (by simp))]
      exact ih rest pat h2

theorem containsSub_of_countOccsL_pos (l pat : List Char)
    (h : 0 < countOccsL l pat) : containsSub l pat = true := by
  cases hc : containsSub l pat with
  | true => rfl
  | false =>
    rw [countOccsL, countFuel_eq_zero_of_not_contains _ _ _ hc] at h
    exact absurd h (by simp)

theorem containsSub_mono (l : List Char) (p q : List Char)
    (hpq : p.isPrefixOf q = true) :
    containsSub l q = true → containsSub l p = true := by
  induction l with
  | nil =>
    intro h
    simp only [containsSub, Bool.or_false] at h
    rw [List.isPrefixOf_iff_prefix] at h hpq
    simp only [containsSub, Bool.or_false]
    rw [List.isPrefixOf_iff_prefix]
    exact hpq.trans h
  | cons c rest ih =>
    intro h
    simp only [containsSub, Bool.or_eq_true] at h
    simp only [containsSub, Bool.or_eq_true]
    cases h with
    | inl h =>
      left
      rw [List.isPrefixOf_iff_prefix] at h hpq ⊢
      exact hpq.trans h
    | inr h => exact Or.inr (ih h)

/-- Any text where the two loop-marker counts differ contains `"\x7b%"`,
so the validator's no-Jinja check passes and the balance check fires. -/
theorem strContains_marker_of_count_ne (t : String)
    (h : countOccs t loopOpenMarker ≠ countOccs t loopCloseMarker) :
    strContains t "\x7b%" = true := by
  by_cases h1 : countOccs t loopOpenMarker = 0
  · have h2 : 0 < countOccs t loopCloseMarker := by
      cases Nat.eq_zero_or_pos (countOccs t loopCloseMarker) with
      | inl hz => exact absurd (h1.trans hz.symm) h
      | inr hp => exact hp
    exact containsSub_mono _ _ _ (by decide)
      (containsSub_of_countOccsL_pos _ _ h2)
  · have h2 : 0 < countOccs t loopOpenMarker := Nat.pos_of_ne_zero h1
    exact containsSub_mono _ _ _ (by decide)
      (containsSub_of_countOccsL_pos _ _ h2)

/-- C8: a document text whose loop-open-marker (`"\x7b% for"`) count differs
from its loop-close-marker (`"\x7b% endfor %\x7d"`) count is rejected with
the loop-imbalance `SyntaxError` (a hard failure), while a text with equal
counts and at least one directive marker present passes that check — it can
never produce the loop-imbalance error. -/
theorem c8_loop_balance (doc : List Para) (autofix : Bool) :
    (countOccs (docText doc) loopOpenMarker ≠
        countOccs (docText doc) loopCloseMarker →
      validateAndFinalizeTemplate doc autofix =
        .error (.syntaxError unbalancedMsg)) ∧
    (countOccs (docText doc) loopOpenMarker =
        countOccs (docText doc) loopCloseMarker →
      (strContains (docText doc) "\x7b\x7b" ||
        strContains (docText doc) "\x7b%") = true →
      validateAndFinalizeTemplate doc autofix ≠
        .error (.syntaxError unbalancedMsg)) := by
  constructor
  · intro hne
    have hm : strContains (docText doc) "\x7b%" = true :=
      strContains_marker_of_count_ne _ hne
    unfold validateAndFinalizeTemplate
    rw [if_neg (by simp [hm])]
    rw [if_pos (by simpa [loopOpenMarker, loopCloseMarker] using hne)]
  · intro heq hdir
    have heq' : countOccs (docText doc) "\x7b% for" =
        countOccs (docText doc) "\x7b% endfor %\x7d" := heq
    unfold validateAndFinalizeTemplate
    rw [if_neg (by simp [hdir])]
    rw [if_neg (fun hne => hne heq')]
    split
    · simp [joinOutsideMsg, unbalancedMsg]
    · split
      · simp
      · split
        · split
          · simp
          · simp
        · simp

theorem c8_loop_balance_witness :
    countOccs (docText [["\x7b% for a"]]) loopOpenMarker ≠
      countOccs (docText [["\x7b% for a"]]) loopCloseMarker ∧
    validateAndFinalizeTemplate [["\x7b% for a"]] true =
      .error (.syntaxError unbalancedMsg) ∧
    countOccs (docText [["\x7b\x7b name \x7d\x7d"]]) loopOpenMarker =
      countOccs (docText [["\x7b\x7b name \x7d\x7d"]]) loopCloseMarker ∧
    validateAndFinalizeTemplate [["\x7b\x7b name \x7d\x7d"]] true ≠
      .error (.syntaxError unbalancedMsg) :=
  ⟨by decide, (c8_loop_balance [["\x7b% for a"]] true).1 (by decide),
   by decide,
   (c8_loop_balance [["\x7b\x7b name \x7d\x7d"]] true).2 (by decide) (by decide)⟩

/-- C7 amended: with `originalSpan` given as the newline-joined text
`"Title A\nCompany A\n2020-2022"` (whose normalized join is the claimed
`"Title A Company A 2020-2022"`), the span collapses: the result document is
the single block `"<loop>...</loop>"`, which contains the new span exactly
once and none of the three original texts. -/
theorem c7_amended :
    replaceTextBlockE [["Title A"], ["Company A"], ["2020-2022"]]
        "Title A\nCompany A\n2020-2022" "<loop>...</loop>" =
      .ok ([["<loop>...</loop>"]], true) ∧
    normText (joinSp (blockLines "Title A\nCompany A\n2020-2022")) =
      "Title A Company A 2020-2022" ∧
    ([["<loop>...</loop>"]] : List Para).countP
        (fun p => strContains (paraText p) "<loop>...</loop>") = 1 ∧
    ([["<loop>...</loop>"]] : List Para).countP
        (fun p => strContains (paraText p) "Title A" ||
          strContains (paraText p) "Company A" ||
          strContains (paraText p) "2020-2022") = 0 := by
  refine ⟨by decide, by decide, by decide, by decide⟩

/-! ## C9: normalization is idempotent -/

theorem noLeadWsB_collapseAux_true (l : List Char) :
    noLeadWsB (collapseAux l true) = true := by
  induction l with
  | nil => rfl
  | cons c rest ih =>
    cases hc : isPyWs c with
    | true => simpa [collapseAux, hc] using ih
    | false => simp [collapseAux, hc, noLeadWsB]

theorem allWsSp_collapseAux (l : List Char) :
    ∀ b, allWsSp (collapseAux l b) = true := by
  induction l with
  | nil => intro b; rfl
  | cons c rest ih =>
    intro b
    cases hc : isPyWs c with
    | true =>
      cases b with
      | true => simpa [collapseAux, hc] using ih true
      | false => simp [collapseAux, hc, allWsSp, ih true]
    | false => simp [collapseAux, hc, allWsSp, ih false]

theorem noAdjWs_cons_of (x : Char) (t : List Char)
    (h1 : noAdjWs t = true)
    (h2 : noLeadWsB t = true ∨ isPyWs x = false) :
    noAdjWs (x :: t) = true := by
  cases t with
  | nil => rfl
  | cons y ys =>
    simp only [noAdjWs, Bool.and_eq_true]
    refine ⟨?_, h1⟩
    cases h2 with
    | inl h =>
      simp only [noLeadWsB, Bool.not_eq_true'] at h
      simp [h]
    | inr h => simp [h]

theorem noAdjWs_collapseAux (l : List Char) :
    ∀ b, noAdjWs (collapseAux l b) = true := by
  induction l with
  | nil => intro b; rfl
  | cons c rest ih =>
    intro b
    cases hc : isPyWs c with
    | true =>
      cases b with
      | true => simpa [collapseAux, hc] using ih true
      | false =>
        simp only [collapseAux, hc, if_pos rfl]
        exact noAdjWs_cons_of _ _ (ih true)
          (Or.inl (noLeadWsB_collapseAux_true rest))
    | false =>
      simp only [collapseAux, hc]
      rw [if_neg (by simp [hc])]
      exact noAdjWs_cons_of _ _ (ih false) (Or.inr hc)

theorem noAdjWs_tail (c : Char) (t : List Char)
    (h : noAdjWs (c :: t) = true) : noAdjWs t = true := by
  cases t with
  | nil => rfl
  | cons y ys =>
    rw [noAdjWs, Bool.and_eq_true] at h
    exact h.2

theorem allWsSp_dropWhile (p : Char → Bool) (l : List Char)
    (h : allWsSp l = true) : allWsSp (l.dropWhile p) = true := by
  induction l with
  | nil => simpa using h
  | cons c rest ih =>
    rw [allWsSp, Bool.and_eq_true] at h
    cases hp : p c with
    | true => simpa [List.dropWhile_cons, hp] using ih h.2
    | false => simpa [List.dropWhile_cons, hp, allWsSp, h.1] using h.2

theorem noAdjWs_dropWhile (p : Char → Bool) (l : List Char)
    (h : noAdjWs l = true) : noAdjWs (l.dropWhile p) = true := by
  induction l with
  | nil => simpa using h
  | cons c rest ih =>
    cases hp : p c with
    | true => simpa [List.dropWhile_cons, hp] using ih (noAdjWs_tail _ _ h)
    | false => simpa [List.dropWhile_cons, hp] using h

theorem noLeadWsB_trimLeftWs (l : List Char) :
    noLeadWsB (trimLeftWs l) = true := by
  induction l with
  | nil => rfl
  | cons c rest ih =>
    cases hc : isPyWs c with
    | true => simpa [trimLeftWs, List.dropWhile_cons, hc] using ih
    | false => simp [trimLeftWs, List.dropWhile_cons, hc, noLeadWsB]

theorem noTrailWsB_cons_of_ne (c : Char) (r : List Char) (h : r ≠ []) :
    noTrailWsB (c :: r) = noTrailWsB r := by
  cases r with
  | nil => exact absurd rfl h
  | cons y ys => rfl

theorem noTrailWsB_trimRightWs (l : List Char) :
    noTrailWsB (trimRightWs l) = true := by
  induction l with
  | nil => rfl
  | cons c rest ih =>
    simp only [trimRightWs]
    split
    · rfl
    · rename_i hcond
      by_cases hr : trimRightWs rest = []
      · have hc : isPyWs c = false := by
          cases hw : isPyWs c with
          | false => rfl
          | true => exact absurd ⟨hr, hw⟩ hcond
        simp [hr, noTrailWsB, hc]
      · rw [noTrailWsB_cons_of_ne _ _ hr]
        exact ih

theorem allWsSp_trimRightWs (l : List Char)
    (h : allWsSp l = true) : allWsSp (trimRightWs l) = true := by
  induction l with
  | nil => simpa using h
  | cons c rest ih =>
    rw [allWsSp, Bool.and_eq_true] at h
    simp only [trimRightWs]
    split
    · rfl
    · rw [allWsSp, Bool.and_eq_true]
      exact ⟨h.1, ih h.2⟩

theorem noLeadWsB_trimRightWs (l : List Char)
    (h : noLeadWsB l = true) : noLeadWsB (trimRightWs l) = true := by
  cases l with
  | nil => rfl
  | cons c rest =>
    simp only [trimRightWs]
    split
    · rfl
    · simpa [noLeadWsB] using h

theorem noAdjWs_trimRightWs (l : List Char)
    (h : noAdjWs l = true) : noAdjWs (trimRightWs l) = true := by
  induction l with
  | nil => simpa using h
  | cons c rest ih =>
    simp only [trimRightWs]
    split
    · rfl
    · refine noAdjWs_cons_of _ _ (ih (noAdjWs_tail _ _ h)) ?_
      cases rest with
      | nil => exact Or.inl rfl
      | cons y ys =>
        cases hw : isPyWs c with
        | false => exact Or.inr rfl
        | true =>
          left
          have hy : isPyWs y = false := by
            rw [noAdjWs, Bool.and_eq_true] at h
            cases hyv : isPyWs y with
            | false => rfl
            | true => simp [hw, hyv] at h
          simp only [trimRightWs]
          split
          · rfl
          · simp [noLeadWsB, hy]

theorem collapseAux_skip (t : List Char) (h : noLeadWsB t = true) :
    collapseAux t true = collapseAux t false := by
  cases t with
  | nil => rfl
  | cons d ds =>
    simp only [noLeadWsB, Bool.not_eq_true'] at h
    simp [collapseAux, h]

theorem collapseAux_id (l : List Char) :
    allWsSp l = true → noAdjWs l = true → collapseAux l false = l := by
  induction l with
  | nil => intro _ _; rfl
  | cons c rest ih =>
    intro h1 h2
    rw [allWsSp, Bool.and_eq_true] at h1
    cases hc : isPyWs c with
    | false =>
      simp only [collapseAux]
      rw [if_neg (by simp [hc])]
      rw [ih h1.2 (noAdjWs_tail _ _ h2)]
    | true =>
      have hsp : c = ' ' := by
        rcases Bool.or_eq_true_iff.mp h1.1 with h | h
        · rw [hc] at h; exact absurd h (by simp)
        · exact of_decide_eq_true h
      have hlead : noLeadWsB rest = true := by
        cases rest with
        | nil => rfl
        | cons y ys =>
          rw [noAdjWs, Bool.and_eq_true] at h2
          cases hyv : isPyWs y with
          | false => simp [noLeadWsB, hyv]
          | true => simp [hc, hyv] at h2
      simp only [collapseAux, hc, if_pos rfl]
      rw [collapseAux_skip rest hlead, ih h1.2 (noAdjWs_tail _ _ h2), hsp]
      simp

theorem trimLeftWs_id (l : List Char) (h : noLeadWsB l = true) :
    trimLeftWs l = l := by
  cases l with
  | nil => rfl
  | cons c rest =>
    simp only [noLeadWsB, Bool.not_eq_true'] at h
    simp [trimLeftWs, List.dropWhile_cons, h]

theorem trimRightWs_id (l : List Char) (h : noTrailWsB l = true) :
    trimRightWs l = l := by
  induction l with
  | nil => rfl
  | cons c rest ih =>
    cases rest with
    | nil =>
      simp only [noTrailWsB, Bool.not_eq_true'] at h
      simp [trimRightWs, h]
    | cons y ys =>
      rw [noTrailWsB_cons_of_ne _ _ (by simp)] at h
      have hr := ih h
      show (if trimRightWs (y :: ys) = [] ∧ isPyWs c = true then []
            else c :: trimRightWs (y :: ys)) = c :: y :: ys
      rw [hr]
      rw [if_neg (by simp)]

/-- The characterization of a fully normalized character list. -/
theorem normalizeChars_normal (l : List Char) :
    allWsSp (normalizeChars l) = true ∧ noAdjWs (normalizeChars l) = true ∧
    noLeadWsB (normalizeChars l) = true ∧ noTrailWsB (normalizeChars l) = true := by
  unfold normalizeChars stripChars collapseWs
  refine ⟨?_, ?_, ?_, ?_⟩
  · exact allWsSp_trimRightWs _
      (allWsSp_dropWhile _ _ (allWsSp_collapseAux l false))
  · exact noAdjWs_trimRightWs _
      (noAdjWs_dropWhile _ _ (noAdjWs_collapseAux l false))
  · exact noLeadWsB_trimRightWs _ (noLeadWsB_trimLeftWs _)
  · exact noTrailWsB_trimRightWs _

theorem normalizeChars_id_of_normal (l : List Char)
    (h1 : allWsSp l = true) (h2 : noAdjWs l = true)
    (h3 : noLeadWsB l = true) (h4 : noTrailWsB l = true) :
    normalizeChars l = l := by
  unfold normalizeChars stripChars collapseWs
  rw [collapseAux_id l h1 h2, trimLeftWs_id l h3, trimRightWs_id l h4]

theorem normalizeChars_idem (l : List Char) :
    normalizeChars (normalizeChars l) = normalizeChars l := by
  obtain ⟨h1, h2, h3, h4⟩ := normalizeChars_normal l
  exact normalizeChars_id_of_normal _ h1 h2 h3 h4

/-- C9: `_normalize_text_for_match` is idempotent — for every string `s`,
`normalize(normalize(s)) = normalize(s)`: collapsing every whitespace run to
one ASCII space and trimming the ends is a projection. -/
theorem c9_normalize_idempotent (s : String) :
    normText (normText s) = normText s := by
  show (⟨normalizeChars (normalizeChars s.data)⟩ : String) = ⟨normalizeChars s.data⟩
  rw [normalizeChars_idem]

end Anonymizer
